import Mathlib

/-!
Verification development for the Baltica Bedrock session pipeline.

The definitions below are a shallow embedding of the TypeScript sources:

* `src/src/network/packet-compressor.ts` (`PacketCompressor.compress`,
  `PacketCompressor.decompress`, `inflate`, `deflate`, `getMethod`);
* `src/src/client/client.ts` (current revision: `Client.sendPacket`,
  `Client.processPacket`, `Client.handleServerHandshake`);
* the newest `Player` revision (`Player.sendPacket`, `Player.processPacket`,
  the `LoginPacket` handler and `sendDisconnectMessage`);
* `src/src/network/auth.ts` (`createOfflineSession`, `generateUUID`) and
  `src/src/client/client-data.ts` (`createClientChainInternal`, offline branch);
* `src/src/bridge/bridge.ts` (`Bridge.processPacketCommon`) and
  `src/src/bridge/bridge-player.ts` (the StartGame replay listener).

Bytes are modelled as `List Nat`; external libraries (zlib, the AES stream
cipher, SHA-256, ECDH, UUIDv3, the packet catalog) enter the model as
function parameters, so every theorem states exactly how the repository's
own code composes them.
-/

namespace Baltica

abbrev Bytes := List Nat

/-! ### Framer (length-prefixed sub-packet batches)

Modelled from the spec: the `Framer` of `@serenityjs/protocol` is an external
dependency not contained in the snapshot.  Per spec section 4.2 it concatenates
sub-packets, each prefixed with an unsigned varint length, and `unframe`
reverses this, failing when a length exceeds the remaining bytes. -/

/-- Unsigned varint (LEB128) encoding, written with explicit fuel so that it
reduces by `decide`/`rfl`.  The fuel `n + 1` always suffices. -/
def uvarintAux : Nat → Nat → Bytes
  | 0, _ => []
  | fuel + 1, n =>
    if n < 128 then [n] else (n % 128 + 128) :: uvarintAux fuel (n / 128)

/-- Unsigned varint encoding of a natural number. -/
def uvarint (n : Nat) : Bytes := uvarintAux (n + 1) n

/-- Read one unsigned varint from the front of a byte list, returning the value
and the remaining bytes. -/
def readUvarint : Bytes → Option (Nat × Bytes)
  | [] => none
  | b :: rest =>
    if b < 128 then some (b, rest)
    else
      match readUvarint rest with
      | some (v, r) => some ((b - 128) + 128 * v, r)
      | none => none

/-- Modelled from the spec: `Framer.frame` on a single sub-packet (the only way
`PacketCompressor.compress` calls it): varint length prefix, then the bytes. -/
def frame (buffer : Bytes) : Bytes := uvarint buffer.length ++ buffer

/-- Modelled from the spec: `Framer.unframe`, with fuel bounding the number of
sub-packets (each consumes at least one byte, so the byte count suffices). -/
def unframeAux : Nat → Bytes → Option (List Bytes)
  | _, [] => some []
  | 0, _ :: _ => none
  | fuel + 1, b :: rest =>
    match readUvarint (b :: rest) with
    | none => none
    | some (len, r) =>
      if len ≤ r.length then
        match unframeAux fuel (r.drop len) with
        | some subs => some (r.take len :: subs)
        | none => none
      else none

/-- Splits a framed batch back into its sub-packets; `none` on truncation. -/
def unframe (buffer : Bytes) : Option (List Bytes) := unframeAux buffer.length buffer

theorem uvarintAux_spec (fuel n : Nat) (t : Bytes) (h : n < fuel) :
    readUvarint (uvarintAux fuel n ++ t) = some (n, t) := by
  induction fuel generalizing n with
  | zero => omega
  | succ f ih =>
    by_cases hn : n < 128
    · simp [uvarintAux, hn, readUvarint]
    · have h128 : 128 ≤ n := Nat.le_of_not_lt hn
      have hdiv : n / 128 < f := by
        have h1 : n / 128 < n := Nat.div_lt_self (by omega) (by omega)
        omega
      simp only [uvarintAux, if_neg hn, List.cons_append, readUvarint]
      rw [if_neg (by omega), ih (n / 128) hdiv]
      have hval : n % 128 + 128 - 128 + 128 * (n / 128) = n := by omega
      simp only [hval]

theorem readUvarint_uvarint (n : Nat) (t : Bytes) :
    readUvarint (uvarint n ++ t) = some (n, t) := by
  have := uvarintAux_spec (n + 1) n t (Nat.lt_succ_self n)
  simpa [uvarint] using this

theorem uvarint_ne_nil (n : Nat) : uvarint n ≠ [] := by
  unfold uvarint uvarintAux
  by_cases h : n < 128 <;> simp [h]

theorem unframeAux_nil (fuel : Nat) : unframeAux fuel [] = some [] := by
  cases fuel <;> rfl

/-- Framer roundtrip on a single sub-packet: unframing a framed buffer yields
exactly that buffer (spec section 8, law 2, restricted to the singleton case
the compressor uses). -/
theorem unframe_frame (p : Bytes) : unframe (frame p) = some [p] := by
  obtain ⟨b, rest, heq⟩ : ∃ b rest, frame p = b :: rest := by
    cases hf : frame p with
    | nil =>
      have : uvarint p.length = [] ∧ p = [] := by
        simpa [frame, List.append_eq_nil] using hf
      exact absurd this.1 (uvarint_ne_nil _)
    | cons b rest => exact ⟨b, rest, rfl⟩
  have hread : readUvarint (b :: rest) = some (p.length, p) := by
    rw [← heq]; exact readUvarint_uvarint p.length p
  have hlen : (frame p).length = rest.length + 1 := by rw [heq]; simp
  rw [unframe, hlen, heq]
  simp [unframeAux, hread, unframeAux_nil]

/-! ### PacketCompressor (src/src/network/packet-compressor.ts)

`CompressionMethod` comes from `@serenityjs/protocol` (spec section 6.4):
Zlib = 0x00, Snappy = 0x01, None = 0xff, NotPresent = 0xffff.  zlib's
`deflateRawSync`/`inflateRawSync` and the AES stream cipher live outside the
snapshot; they enter the model as the fields of a `Codec`. -/

inductive CompressionMethod where
  | zlib
  | snappy
  | nonePresent
  | notPresent
deriving DecidableEq, Repr

/-- Numeric enum value of a compression method. -/
def CompressionMethod.val : CompressionMethod → Nat
  | .zlib => 0
  | .snappy => 1
  | .nonePresent => 255
  | .notPresent => 65535

/-- PacketCompressor.getMethod: `header in CompressionMethod ? header :
CompressionMethod.NotPresent` — a byte that is a declared enum value maps to
itself, anything else to NotPresent. -/
def getMethod (header : Nat) : CompressionMethod :=
  if header = 0 then .zlib
  else if header = 1 then .snappy
  else if header = 255 then .nonePresent
  else .notPresent

/-- External pure codecs: raw-deflate zlib and the per-session stream cipher.
The repository calls them but does not implement them. -/
structure Codec where
  zlibDeflate : Bytes → Bytes
  zlibInflate : Bytes → Bytes
  encryptBytes : Bytes → Bytes
  decryptBytes : Bytes → Bytes

/-- Session fields read by the compressor: `_encryptionEnabled`,
`_compressionEnabled`, `options.compressionThreshold`,
`options.compressionMethod`. -/
structure CompressorState where
  encryptionEnabled : Bool
  compressionEnabled : Bool
  compressionThreshold : Nat
  compressionMethod : CompressionMethod
deriving DecidableEq, Repr

/-- PacketCompressor.deflate: Zlib raw-deflates, Snappy throws, any other
method returns the buffer unchanged. -/
def deflate (c : Codec) (buffer : Bytes) : CompressionMethod → Except String Bytes
  | .zlib => .ok (c.zlibDeflate buffer)
  | .snappy => .error "Snappy compression is not supported"
  | _ => .ok buffer

/-- PacketCompressor.inflate: mirror of `deflate`. -/
def inflate (c : Codec) (buffer : Bytes) : CompressionMethod → Except String Bytes
  | .zlib => .ok (c.zlibInflate buffer)
  | .snappy => .error "Snappy compression is not supported"
  | _ => .ok buffer

/-- Modelled from the spec: `PacketEncryptor.encryptPacket`
(src/network/packet-encryptor.ts is not part of the snapshot).  Per the outer
envelope law (spec sections 4.3 and 8 law 4) the emitted batch is the `0xFE`
leader followed by the ciphertext of the payload. -/
def encryptPacket (c : Codec) (payload : Bytes) : Bytes :=
  254 :: c.encryptBytes payload

/-- Modelled from the spec: `PacketEncryptor.decryptPacket` on the bytes after
the `0xFE` leader. -/
def decryptPacket (c : Codec) (payload : Bytes) : Bytes :=
  c.decryptBytes payload

/-- PacketCompressor.compress, embedded from
src/src/network/packet-compressor.ts lines 44-59: frame, then either encrypt
(encryption enabled), or prepend a method byte and optionally deflate.
`Buffer.from([m])` keeps the low byte, hence `.val % 256`. -/
def compress (st : CompressorState) (c : Codec) (buffer : Bytes) : Except String Bytes :=
  let framed := frame buffer
  if st.encryptionEnabled then .ok (encryptPacket c framed)
  else
    let shouldCompress := decide (framed.length > st.compressionThreshold) && st.compressionEnabled
    if shouldCompress then
      match deflate c framed st.compressionMethod with
      | .ok d => .ok (254 :: st.compressionMethod.val % 256 :: d)
      | .error e => .error e
    else if st.compressionEnabled then .ok (254 :: 255 :: framed)
    else .ok (254 :: framed)

/-- PacketCompressor.decompress, embedded from
src/src/network/packet-compressor.ts lines 13-31: reject a missing `0xFE`
leader, decrypt when encryption is enabled, then read the method byte
unconditionally (`const header = packet[0]`), strip it unless NotPresent,
inflate, unframe. -/
def decompress (st : CompressorState) (c : Codec) (buffer : Bytes) :
    Except String (List Bytes) :=
  match buffer with
  | [] => .error "Invalid packet"
  | b :: rest =>
    if b ≠ 254 then .error "Invalid packet"
    else
      let packet := if st.encryptionEnabled then decryptPacket c rest else rest
      let method :=
        match packet.head? with
        | some h => getMethod h
        | none => CompressionMethod.notPresent
      let body := if method ≠ CompressionMethod.notPresent then packet.drop 1 else packet
      match inflate c body method with
      | .error e => .error e
      | .ok inflated =>
        match unframe inflated with
        | some subPackets => .ok subPackets
        | none => .error "Truncated frame"

/-- Codec whose external functions are all the identity; used to instantiate
witnesses on concrete inputs. -/
def idCodec : Codec := ⟨id, id, id, id⟩

/-- C1: every batch produced by `PacketCompressor.compress` begins with the
leader byte 0xFE; when encryption is off and compression is enabled, the byte
after 0xFE is a compression-method byte in the set 0x00/0x01/0xFF; when
encryption is on, no method byte is present and the bytes after 0xFE are
exactly the ciphertext of the framed payload. -/
theorem c1_compress_envelope (st : CompressorState) (c : Codec) (buffer out : Bytes)
    (h : compress st c buffer = .ok out) :
    out.head? = some 254 ∧
    (st.encryptionEnabled = false → st.compressionEnabled = true →
      ∃ m, out[1]? = some m ∧ (m = 0 ∨ m = 1 ∨ m = 255)) ∧
    (st.encryptionEnabled = true → out = 254 :: c.encryptBytes (frame buffer)) := by
  obtain ⟨enc, ce, th, cm⟩ := st
  cases enc with
  | true =>
    simp only [compress, encryptPacket, if_true, Except.ok.injEq] at h
    subst h
    exact ⟨rfl, fun hc => absurd hc (by simp), fun _ => rfl⟩
  | false =>
    simp only [compress, Bool.false_eq_true, if_false] at h
    by_cases hsc : (decide ((frame buffer).length > th) && ce) = true
    · rw [if_pos hsc] at h
      cases cm with
      | zlib =>
        simp only [deflate, Except.ok.injEq] at h
        subst h
        exact ⟨rfl, fun _ _ => ⟨0, by simp [CompressionMethod.val], Or.inl rfl⟩,
          fun hc => absurd hc (by simp)⟩
      | snappy => simp [deflate] at h
      | nonePresent =>
        simp only [deflate, Except.ok.injEq] at h
        subst h
        exact ⟨rfl, fun _ _ => ⟨255, by norm_num [CompressionMethod.val], Or.inr (Or.inr rfl)⟩,
          fun hc => absurd hc (by simp)⟩
      | notPresent =>
        simp only [deflate, Except.ok.injEq] at h
        subst h
        exact ⟨rfl, fun _ _ => ⟨255, by norm_num [CompressionMethod.val], Or.inr (Or.inr rfl)⟩,
          fun hc => absurd hc (by simp)⟩
    · rw [if_neg hsc] at h
      cases ce with
      | true =>
        simp only [if_true, Except.ok.injEq] at h
        subst h
        exact ⟨rfl, fun _ _ => ⟨255, by norm_num, Or.inr (Or.inr rfl)⟩,
          fun hc => absurd hc (by simp)⟩
      | false =>
        simp only [Bool.false_eq_true, if_false, Except.ok.injEq] at h
        subst h
        exact ⟨rfl, fun _ hc => absurd hc (by simp), fun hc => absurd hc (by simp)⟩

/-- Witness for C1: the concrete batch `compress` emits for the sub-packet
`[5]` with compression on, threshold 0, zlib configured and no encryption. -/
theorem c1_compress_envelope_witness :
    ([254, 0, 1, 5] : Bytes).head? = some 254 ∧
    (∃ m, ([254, 0, 1, 5] : Bytes)[1]? = some m ∧ (m = 0 ∨ m = 1 ∨ m = 255)) :=
  have h := c1_compress_envelope ⟨false, true, 0, CompressionMethod.zlib⟩ idCodec [5]
    [254, 0, 1, 5] rfl
  ⟨h.1, h.2.1 rfl rfl⟩

/-- Written from the claim's words (C2, spec section 4.3): strip `0xFE`
(rejecting other leaders), decrypt if encryption is enabled, read a
compression-method byte only if encryption was off, inflate, unframe.  Under
encryption no method byte was written, so the decrypted payload is the bare
framed batch and is unframed directly.  Kept separate from `decompress` so the
two can be compared. -/
def specMirrorDecompress (st : CompressorState) (c : Codec) (buffer : Bytes) :
    Except String (List Bytes) :=
  match buffer with
  | [] => .error "Invalid packet"
  | b :: rest =>
    if b ≠ 254 then .error "Invalid packet"
    else if st.encryptionEnabled then
      match unframe (decryptPacket c rest) with
      | some subPackets => .ok subPackets
      | none => .error "Truncated frame"
    else
      let method :=
        match rest.head? with
        | some h => getMethod h
        | none => CompressionMethod.notPresent
      let body := if method ≠ CompressionMethod.notPresent then rest.drop 1 else rest
      match inflate c body method with
      | .error e => .error e
      | .ok inflated =>
        match unframe inflated with
        | some subPackets => .ok subPackets
        | none => .error "Truncated frame"

/-- C2 counterexample: the code reads a compression-method byte even when
encryption was on.  For the inbound batch `[0xFE, 0x01, 0x04]` with encryption
enabled (identity cipher), the claimed mirror recovers the sub-packet `[0x04]`
while `decompress` treats the decrypted `0x01` as a Snappy method byte and
throws, so decompress does not mirror compress as claimed. -/
theorem c2_counterexample :
    decompress ⟨true, false, 0, CompressionMethod.zlib⟩ idCodec [254, 1, 4] =
      .error "Snappy compression is not supported" ∧
    specMirrorDecompress ⟨true, false, 0, CompressionMethod.zlib⟩ idCodec [254, 1, 4] =
      .ok [[4]] ∧
    decompress ⟨true, false, 0, CompressionMethod.zlib⟩ idCodec [254, 1, 4] ≠
      specMirrorDecompress ⟨true, false, 0, CompressionMethod.zlib⟩ idCodec [254, 1, 4] := by
  have h1 : decompress ⟨true, false, 0, CompressionMethod.zlib⟩ idCodec [254, 1, 4] =
      .error "Snappy compression is not supported" := rfl
  have h2 : specMirrorDecompress ⟨true, false, 0, CompressionMethod.zlib⟩ idCodec [254, 1, 4] =
      .ok [[4]] := rfl
  refine ⟨h1, h2, ?_⟩
  rw [h1, h2]
  exact fun hcontra => Except.noConfusion hcontra

/-- Leader stripping: reject buffers that do not start with `0xFE`. -/
def stripLeader : Bytes → Except String Bytes
  | [] => .error "Invalid packet"
  | b :: rest => if b = 254 then .ok rest else .error "Invalid packet"

/-- Unconditional method-byte scan: the method named by the first byte of the
(possibly decrypted) payload, and the bytes left to inflate; the byte is
consumed unless it denotes NotPresent. -/
def readMethodByte (packet : Bytes) : CompressionMethod × Bytes :=
  match packet with
  | [] => (CompressionMethod.notPresent, [])
  | h :: t =>
    if getMethod h = CompressionMethod.notPresent then (getMethod h, h :: t)
    else (getMethod h, t)

/-- Corrected mirror pipeline: strip the leader, decrypt if enabled, then scan
for a method byte unconditionally (even when encryption was on), inflate and
unframe. -/
def amendedMirrorDecompress (st : CompressorState) (c : Codec) (buffer : Bytes) :
    Except String (List Bytes) :=
  match stripLeader buffer with
  | .error e => .error e
  | .ok rest =>
    let packet := if st.encryptionEnabled then decryptPacket c rest else rest
    let scanned := readMethodByte packet
    match inflate c scanned.2 scanned.1 with
    | .error e => .error e
    | .ok inflated =>
      match unframe inflated with
      | some subPackets => .ok subPackets
      | none => .error "Truncated frame"

theorem readMethodByte_eq (packet : Bytes) :
    readMethodByte packet =
      ((match packet.head? with
        | some h => getMethod h
        | none => CompressionMethod.notPresent),
       if (match packet.head? with
           | some h => getMethod h
           | none => CompressionMethod.notPresent) ≠ CompressionMethod.notPresent
       then packet.drop 1 else packet) := by
  cases packet with
  | nil => simp [readMethodByte]
  | cons h t =>
    by_cases hm : getMethod h = CompressionMethod.notPresent <;>
      simp [readMethodByte, hm]

/-- C2 amended: `decompress` strips the `0xFE` leader (rejecting buffers that
do not start with it), decrypts when encryption is enabled, then reads a
compression-method byte unconditionally — also when encryption was on —
consuming it unless it denotes NotPresent, and finally inflates and unframes. -/
theorem c2_amended_decompress_pipeline (st : CompressorState) (c : Codec) (buffer : Bytes) :
    decompress st c buffer = amendedMirrorDecompress st c buffer := by
  cases buffer with
  | nil => rfl
  | cons b rest =>
    by_cases hb : b = 254
    · subst hb
      simp only [decompress, amendedMirrorDecompress, stripLeader, if_pos rfl, ne_eq,
        not_true_eq_false, if_false, readMethodByte_eq]
      rw [if_pos trivial]
    · simp [decompress, amendedMirrorDecompress, stripLeader, hb]

/-- Helper: decompressing an unencrypted batch whose method byte is 0xFF
(None) recovers the framed payload verbatim. -/
theorem decompress_none_byte (st : CompressorState) (c : Codec) (p : Bytes)
    (henc : st.encryptionEnabled = false) :
    decompress st c (254 :: 255 :: frame p) = .ok [p] := by
  simp [decompress, henc, getMethod, inflate, unframe_frame]

/-- Helper: decompressing an unencrypted zlib batch inverts the deflation. -/
theorem decompress_zlib_byte (st : CompressorState) (c : Codec) (p : Bytes)
    (henc : st.encryptionEnabled = false)
    (hzlib : ∀ b, c.zlibInflate (c.zlibDeflate b) = b) :
    decompress st c (254 :: 0 :: c.zlibDeflate (frame p)) = .ok [p] := by
  simp [decompress, henc, getMethod, inflate, hzlib, unframe_frame]

/-- C3: with encryption off and compression enabled, a batch above the
negotiated threshold carries the deflated framed bytes under the configured
method, one at or below it carries the method byte None (0xFF) and the framed
bytes verbatim; in both cases `decompress` recovers the original sub-packet
(the zlib roundtrip hypothesis stands in for the external zlib library). -/
theorem c3_threshold_policy_roundtrip (st : CompressorState) (c : Codec) (p out : Bytes)
    (henc : st.encryptionEnabled = false) (hce : st.compressionEnabled = true)
    (hzlib : ∀ b, c.zlibInflate (c.zlibDeflate b) = b)
    (h : compress st c p = .ok out) :
    ((frame p).length > st.compressionThreshold →
      ∃ d, deflate c (frame p) st.compressionMethod = .ok d ∧
        out = 254 :: st.compressionMethod.val % 256 :: d) ∧
    (¬ (frame p).length > st.compressionThreshold → out = 254 :: 255 :: frame p) ∧
    decompress st c out = .ok [p] := by
  obtain ⟨enc, ce, th, cm⟩ := st
  simp only at henc hce hzlib h ⊢
  subst henc
  subst hce
  simp only [compress, Bool.false_eq_true, if_false, Bool.and_true] at h
  by_cases hlen : (frame p).length > th
  · rw [if_pos (by simpa using hlen)] at h
    cases cm with
    | zlib =>
      simp only [deflate, Except.ok.injEq] at h
      subst h
      refine ⟨fun _ => ⟨c.zlibDeflate (frame p), rfl, rfl⟩, fun hc => absurd hlen hc, ?_⟩
      have : CompressionMethod.zlib.val % 256 = 0 := rfl
      rw [this]
      exact decompress_zlib_byte ⟨false, true, th, CompressionMethod.zlib⟩ c p rfl hzlib
    | snappy => simp [deflate] at h
    | nonePresent =>
      simp only [deflate, Except.ok.injEq] at h
      subst h
      refine ⟨fun _ => ⟨frame p, rfl, rfl⟩, fun hc => absurd hlen hc, ?_⟩
      have : CompressionMethod.nonePresent.val % 256 = 255 := rfl
      rw [this]
      exact decompress_none_byte ⟨false, true, th, CompressionMethod.nonePresent⟩ c p rfl
    | notPresent =>
      simp only [deflate, Except.ok.injEq] at h
      subst h
      refine ⟨fun _ => ⟨frame p, rfl, rfl⟩, fun hc => absurd hlen hc, ?_⟩
      have : CompressionMethod.notPresent.val % 256 = 255 := by norm_num [CompressionMethod.val]
      rw [this]
      exact decompress_none_byte ⟨false, true, th, CompressionMethod.notPresent⟩ c p rfl
  · rw [if_neg (by simpa using hlen)] at h
    simp only [if_pos trivial, Except.ok.injEq] at h
    subst h
    exact ⟨fun hc => absurd hc hlen, fun _ => rfl,
      decompress_none_byte ⟨false, true, th, cm⟩ c p rfl⟩

/-- Witness for C3 at the sub-packet `[5]`, zlib configured, threshold 0
(above threshold) and the identity codec. -/
theorem c3_threshold_policy_roundtrip_witness :
    (((frame [5]).length > 0 →
      ∃ d, deflate idCodec (frame [5]) CompressionMethod.zlib = .ok d ∧
        ([254, 0, 1, 5] : Bytes) = 254 :: CompressionMethod.zlib.val % 256 :: d) ∧
    (¬ (frame [5]).length > 0 → ([254, 0, 1, 5] : Bytes) = 254 :: 255 :: frame [5]) ∧
    decompress ⟨false, true, 0, CompressionMethod.zlib⟩ idCodec [254, 0, 1, 5] = .ok [[5]]) :=
  c3_threshold_policy_roundtrip ⟨false, true, 0, CompressionMethod.zlib⟩ idCodec [5]
    [254, 0, 1, 5] rfl rfl (fun _ => rfl) rfl

/-! ### Sessions

Embeds the outbound/inbound paths of the two session kinds: `Client`
(src/src/client/client.ts, current revision) and the newest `Player` revision
(the one carrying the Disconnected guard, the pre-serialized packets and the
decodeLoginJWT try/catch).  `Status` is the RakNet status enum;
crypto primitives (SHA-256, ECDH) enter as function parameters and public keys
as opaque `Nat` handles. -/

inductive Status where
  | disconnected
  | connecting
  | connected
deriving DecidableEq, Repr

inductive Priority where
  | immediate
  | normal
deriving DecidableEq, Repr

/-- Session fields the embedded operations touch.  `privKey`/`pubKey` are
opaque handles for the session's secp384r1 ECDH keypair (`pubKey` standing for
the x5u / clientX509 SPKI encoding); `sendCounter` models the packet
encryptor's outbound counter, which advances once per encrypted batch. -/
structure SessionState where
  status : Status
  encryptionEnabled : Bool
  compressionEnabled : Bool
  compressionThreshold : Nat
  compressionMethod : CompressionMethod
  secretKeyBytes : Bytes
  iv : Bytes
  sharedSecret : Bytes
  privKey : Nat
  pubKey : Nat
  sendCounter : Nat
deriving DecidableEq, Repr

/-- The compressor's view of a session. -/
def SessionState.comp (st : SessionState) : CompressorState :=
  ⟨st.encryptionEnabled, st.compressionEnabled, st.compressionThreshold, st.compressionMethod⟩

/-- RakNet frame as filled in by sendPacket: payload plus order channel 0. -/
structure RakFrame where
  payload : Bytes
  orderChannel : Nat
deriving DecidableEq, Repr

/-- Client.sendPacket (src/src/client/client.ts, current revision): return
immediately when the session status is Disconnected; otherwise compress the
serialized packet and hand exactly one frame on order channel 0 to RakNet at
the requested priority.  The surrounding try/catch logs compressor errors and
hands nothing over. -/
def clientSendPacket (st : SessionState) (c : Codec) (serialized : Bytes)
    (priority : Priority) : SessionState × Option (RakFrame × Priority) :=
  if st.status = Status.disconnected then (st, none)
  else
    match compress st.comp c serialized with
    | .ok compressed =>
      ({ st with
          sendCounter := if st.encryptionEnabled then st.sendCounter + 1 else st.sendCounter },
        some (⟨compressed, 0⟩, priority))
    | .error _ => (st, none)

/-- Client.send: sendPacket at Immediate priority. -/
def clientSend (st : SessionState) (c : Codec) (serialized : Bytes) :
    SessionState × Option (RakFrame × Priority) :=
  clientSendPacket st c serialized Priority.immediate

/-- Client.queue: sendPacket at Normal priority. -/
def clientQueue (st : SessionState) (c : Codec) (serialized : Bytes) :
    SessionState × Option (RakFrame × Priority) :=
  clientSendPacket st c serialized Priority.normal

/-- Player.sendPacket (newest Player revision): the same Disconnected guard,
then compress and sendFrame.  A compressor exception propagates before any
frame is handed over, with no session state touched. -/
def playerSendPacket (st : SessionState) (c : Codec) (serialized : Bytes)
    (priority : Priority) : SessionState × Option (RakFrame × Priority) :=
  if st.status = Status.disconnected then (st, none)
  else
    match compress st.comp c serialized with
    | .ok compressed =>
      ({ st with
          sendCounter := if st.encryptionEnabled then st.sendCounter + 1 else st.sendCounter },
        some (⟨compressed, 0⟩, priority))
    | .error _ => (st, none)

/-- Player.send: sendPacket at Immediate priority. -/
def playerSend (st : SessionState) (c : Codec) (serialized : Bytes) :
    SessionState × Option (RakFrame × Priority) :=
  playerSendPacket st c serialized Priority.immediate

/-- Player.queue: sendPacket at Normal priority. -/
def playerQueue (st : SessionState) (c : Codec) (serialized : Bytes) :
    SessionState × Option (RakFrame × Priority) :=
  playerSendPacket st c serialized Priority.normal

/-- C10: for a session whose status is Disconnected, sendPacket at any
priority — hence send and queue — returns without handing any frame to the
RakNet layer and leaves every session field (flags, key material, counters)
unchanged, on both session kinds. -/
theorem c10_sendPacket_disconnected (st : SessionState) (c : Codec) (serialized : Bytes)
    (priority : Priority) (h : st.status = Status.disconnected) :
    clientSendPacket st c serialized priority = (st, none) ∧
    playerSendPacket st c serialized priority = (st, none) ∧
    clientSend st c serialized = (st, none) ∧
    clientQueue st c serialized = (st, none) ∧
    playerSend st c serialized = (st, none) ∧
    playerQueue st c serialized = (st, none) := by
  unfold clientSend clientQueue playerSend playerQueue clientSendPacket playerSendPacket
  simp [h]

/-- Disconnected session with zeroed key material, for witnesses. -/
def stDisconnected : SessionState :=
  ⟨Status.disconnected, false, false, 0, CompressionMethod.zlib, [], [], [], 0, 0, 0⟩

/-- Witness for C10 at a concrete disconnected session. -/
theorem c10_sendPacket_disconnected_witness :
    clientSendPacket stDisconnected idCodec [9] Priority.normal = (stDisconnected, none) ∧
    playerSendPacket stDisconnected idCodec [9] Priority.normal = (stDisconnected, none) ∧
    clientSend stDisconnected idCodec [9] = (stDisconnected, none) ∧
    clientQueue stDisconnected idCodec [9] = (stDisconnected, none) ∧
    playerSend stDisconnected idCodec [9] = (stDisconnected, none) ∧
    playerQueue stDisconnected idCodec [9] = (stDisconnected, none) :=
  c10_sendPacket_disconnected stDisconnected idCodec [9] Priority.normal rfl

/-! ### Dispatch order (processPacket) -/

/-- Listener registration snapshot: which packet names have specific
listeners, and whether the generic "packet" listener is registered. -/
structure ListenerConfig where
  hasSpecific : Nat → Bool
  hasGeneric : Bool

/-- One emitter invocation observed by listeners, in dispatch order. -/
inductive EmitEv where
  | specific (id : Nat)
  | generic (id : Nat)
deriving DecidableEq, Repr

/-- Client.processPacket (src/src/client/client.ts, current revision): skip
unknown ids; deserialize once if anyone listens; emit to the specific-name
listeners first, then to the generic "packet" listener. -/
def clientProcessPacket (known : Nat → Bool) (L : ListenerConfig) (id : Nat) : List EmitEv :=
  if known id then
    if L.hasSpecific id || L.hasGeneric then
      (if L.hasSpecific id then [EmitEv.specific id] else []) ++
        (if L.hasGeneric then [EmitEv.generic id] else [])
    else []
  else []

/-- Player.processPacket (newest Player revision): id 0x81 is special-cased to
the ClientCacheStatus listener only; otherwise the generic "packet" listener
is emitted first (when registered), then the specific-name emit happens
unconditionally. -/
def playerProcessPacket (known : Nat → Bool) (L : ListenerConfig) (id : Nat) : List EmitEv :=
  if id = 129 then [EmitEv.specific 129]
  else if known id then
    (if L.hasGeneric then [EmitEv.generic id] else []) ++ [EmitEv.specific id]
  else []

/-- C8 counterexample: on the server-side Player, a packet observed by both a
specific-name listener and the generic listener reaches the generic listener
first — the dispatch trace is generic-then-specific, not the claimed
specific-then-generic. -/
theorem c8_counterexample :
    playerProcessPacket (fun _ => true) ⟨fun _ => true, true⟩ 9 =
      [EmitEv.generic 9, EmitEv.specific 9] ∧
    playerProcessPacket (fun _ => true) ⟨fun _ => true, true⟩ 9 ≠
      [EmitEv.specific 9, EmitEv.generic 9] := by
  refine ⟨rfl, ?_⟩
  intro h
  rw [show playerProcessPacket (fun _ => true) ⟨fun _ => true, true⟩ 9 =
      [EmitEv.generic 9, EmitEv.specific 9] from rfl] at h
  simp at h

/-- C8 amended: when both a specific-name listener and the generic "packet"
listener observe one received packet, the Client fires the specific-name
listeners before the generic one, but the server-side Player fires the generic
listener first. -/
theorem c8_amended_dispatch_order (known : Nat → Bool) (L : ListenerConfig) (id : Nat)
    (hk : known id = true) (hs : L.hasSpecific id = true) (hg : L.hasGeneric = true)
    (h129 : id ≠ 129) :
    clientProcessPacket known L id = [EmitEv.specific id, EmitEv.generic id] ∧
    playerProcessPacket known L id = [EmitEv.generic id, EmitEv.specific id] := by
  unfold clientProcessPacket playerProcessPacket
  simp [hk, hs, hg, h129]

/-- Witness for the amended C8 at packet id 9 with both listeners present. -/
theorem c8_amended_dispatch_order_witness :
    clientProcessPacket (fun _ => true) ⟨fun _ => true, true⟩ 9 =
      [EmitEv.specific 9, EmitEv.generic 9] ∧
    playerProcessPacket (fun _ => true) ⟨fun _ => true, true⟩ 9 =
      [EmitEv.generic 9, EmitEv.specific 9] :=
  c8_amended_dispatch_order (fun _ => true) ⟨fun _ => true, true⟩ 9 rfl rfl rfl (by decide)

/-! ### Login and handshake crypto path -/

/-- UTF-8 bytes of the fixed salt constant `SALT = The salt emoji` (part_012
and player.ts, `SALT_BUFFER = Buffer.from(SALT)`). -/
def saltBuffer : Bytes := [240, 159, 167, 130]

/-- DisconnectReason values the embedded code uses (from
`@serenityjs/protocol`). -/
inductive DisconnectReason where
  | versionMismatch
  | disconnected
deriving DecidableEq, Repr

/-- ServerToClientHandshake token, reduced to what the handlers exchange: the
JOSE header's x5u (opaque public-key handle) and the base64-decoded salt bytes
from the payload. -/
structure HsToken where
  x5u : Nat
  salt : Bytes
deriving DecidableEq, Repr

/-- Typed outbound packets the embedded server handlers emit. -/
inductive ServerPacket where
  | serverToClientHandshake (token : HsToken)
  | disconnect (hideDisconnectScreen : Bool) (message : String) (reason : DisconnectReason)
  | playStatusLoginSuccess
deriving DecidableEq, Repr

/-- Key derivation shared by both sides (part_012 lines 148-153 on the server,
client.ts handleServerHandshake on the client): SHA-256 over salt bytes
followed by the ECDH shared secret. -/
def deriveSecretHash (sha256 : Bytes → Bytes) (salt sharedSecret : Bytes) : Bytes :=
  sha256 (salt ++ sharedSecret)

/-- Outcome of `decodeLoginJWT`: the chain's identityPublicKey (opaque
handle) plus the extraData profile fields the handler copies. -/
structure LoginInfo where
  identityKey : Nat
  displayName : String
  identity : String
  xuid : Nat
deriving DecidableEq, Repr

/-- Player LoginPacket handler (newest Player revision, part_012 lines
121-202).  On a `decodeLoginJWT` failure the catch block calls
`sendDisconnectMessage`, which builds a Disconnect packet with reason
VersionMismatch and passes it to sendPacket at Immediate priority — still
subject to sendPacket's Disconnected guard — and encryption is never started.
On success: derive the shared secret from the chain's identityPublicKey,
SHA-256 it under the fixed salt, store key and IV (first 16 bytes), send
ServerToClientHandshake carrying the salt and the server's x5u, then enable
encryption. -/
def playerLoginHandler (sha256 : Bytes → Bytes) (ecdh : Nat → Nat → Bytes)
    (st : SessionState) (decoded : Except String LoginInfo) :
    SessionState × List (ServerPacket × Priority) :=
  match decoded with
  | .error _ =>
    if st.status = Status.disconnected then (st, [])
    else
      (st, [(ServerPacket.disconnect false "Version mismatch, please update your client!"
        DisconnectReason.versionMismatch, Priority.immediate)])
  | .ok info =>
    let sharedSecret := ecdh st.privKey info.identityKey
    let key := deriveSecretHash sha256 saltBuffer sharedSecret
    let st1 := { st with sharedSecret := sharedSecret, secretKeyBytes := key, iv := key.take 16 }
    let sends :=
      if st1.status = Status.disconnected then []
      else [(ServerPacket.serverToClientHandshake ⟨st.pubKey, saltBuffer⟩, Priority.immediate)]
    ({ st1 with encryptionEnabled := true }, sends)

/-- C9 counterexample: a Login packet processed while the session status is
still Disconnected (no RequestNetworkSettings seen yet) whose JWT chain fails
verification produces no outbound packet at all — the Disconnect is swallowed
by sendPacket's guard, contradicting the claim that the server sends it. -/
theorem c9_counterexample :
    (playerLoginHandler (fun b => b) (fun _ _ => []) stDisconnected
        (.error "jwt verify failed")).2 = [] ∧
    ¬ ∃ x ∈ (playerLoginHandler (fun b => b) (fun _ _ => []) stDisconnected
        (.error "jwt verify failed")).2,
      ∃ hide msg, x.1 = ServerPacket.disconnect hide msg DisconnectReason.versionMismatch := by
  refine ⟨rfl, ?_⟩
  rintro ⟨x, hx, -⟩
  rw [show (playerLoginHandler (fun b => b) (fun _ _ => []) stDisconnected
      (.error "jwt verify failed")).2 = [] from rfl] at hx
  exact absurd hx (List.not_mem_nil x)

/-- C9 amended: provided the session is no longer Disconnected (it is
Connecting once RequestNetworkSettings was handled, the only scripted route to
Login), a JWT chain verification failure makes the server emit exactly one
Disconnect packet with reason VersionMismatch at Immediate priority, leaves
the session state untouched, and the handshake never reaches encryption. -/
theorem c9_amended_login_failure (sha256 : Bytes → Bytes) (ecdh : Nat → Nat → Bytes)
    (st : SessionState) (e : String) (hst : st.status ≠ Status.disconnected) :
    playerLoginHandler sha256 ecdh st (.error e) =
      (st, [(ServerPacket.disconnect false "Version mismatch, please update your client!"
        DisconnectReason.versionMismatch, Priority.immediate)]) ∧
    (playerLoginHandler sha256 ecdh st (.error e)).1.encryptionEnabled =
      st.encryptionEnabled := by
  unfold playerLoginHandler
  simp [hst]

/-- Connecting, unencrypted session for witnesses. -/
def stConnecting : SessionState :=
  ⟨Status.connecting, false, true, 0, CompressionMethod.zlib, [], [], [], 3, 4, 0⟩

/-- Witness for the amended C9 at a Connecting session. -/
theorem c9_amended_login_failure_witness :
    playerLoginHandler (fun b => b) (fun _ _ => []) stConnecting (.error "bad chain") =
      (stConnecting, [(ServerPacket.disconnect false
        "Version mismatch, please update your client!"
        DisconnectReason.versionMismatch, Priority.immediate)]) ∧
    (playerLoginHandler (fun b => b) (fun _ _ => []) stConnecting
        (.error "bad chain")).1.encryptionEnabled = stConnecting.encryptionEnabled :=
  c9_amended_login_failure (fun b => b) (fun _ _ => []) stConnecting "bad chain" (by decide)

/-- Actions the client handshake handler performs, in order. -/
inductive ClientAction where
  | sendFrame (payload : Bytes) (priority : Priority)
deriving DecidableEq, Repr

/-- Client.handleServerHandshake (src/src/client/client.ts, current revision,
lines 535-564): read x5u from the token header and the base64 salt from its
payload, derive the ECDH shared secret, hash salt-then-secret with SHA-256,
store the digest as secretKeyBytes and its first 16 bytes as the IV, call
startEncryption, then send ClientToServerHandshake — `c2shBytes` is its
catalog serialization — via send (Immediate priority). -/
def handleServerHandshake (sha256 : Bytes → Bytes) (ecdh : Nat → Nat → Bytes) (c : Codec)
    (st : SessionState) (tok : HsToken) (c2shBytes : Bytes) :
    SessionState × List ClientAction :=
  let sharedSecret := ecdh st.privKey tok.x5u
  let secretHash := deriveSecretHash sha256 tok.salt sharedSecret
  let st1 :=
    { st with
        sharedSecret := sharedSecret
        secretKeyBytes := secretHash
        iv := secretHash.take 16
        encryptionEnabled := true }
  match clientSendPacket st1 c c2shBytes Priority.immediate with
  | (st2, some (fr, p)) => (st2, [ClientAction.sendFrame fr.payload p])
  | (st2, none) => (st2, [])

/-- C4: on ServerToClientHandshake the client derives the shared secret from
the token's x5u, sets the key to SHA-256(salt bytes followed by shared
secret) with the IV its first 16 bytes, enables encryption before anything
further is sent, and the single outbound frame it then emits is the encrypted
framed ClientToServerHandshake; the server's Login handler derives the same
key and IV from the chain's identityPublicKey and the fixed salt (the ECDH
agreement hypothesis states that both shared-secret computations coincide). -/
theorem c4_handshake_encryption (sha256 : Bytes → Bytes) (ecdh : Nat → Nat → Bytes)
    (c : Codec) (st : SessionState) (tok : HsToken) (c2shBytes : Bytes)
    (servPriv clientIdKey : Nat)
    (hst : st.status ≠ Status.disconnected)
    (hsalt : tok.salt = saltBuffer)
    (hecdh : ecdh st.privKey tok.x5u = ecdh servPriv clientIdKey) :
    (handleServerHandshake sha256 ecdh c st tok c2shBytes).1.secretKeyBytes =
      sha256 (tok.salt ++ ecdh st.privKey tok.x5u) ∧
    (handleServerHandshake sha256 ecdh c st tok c2shBytes).1.iv =
      (sha256 (tok.salt ++ ecdh st.privKey tok.x5u)).take 16 ∧
    (handleServerHandshake sha256 ecdh c st tok c2shBytes).1.encryptionEnabled = true ∧
    (handleServerHandshake sha256 ecdh c st tok c2shBytes).2 =
      [ClientAction.sendFrame (254 :: c.encryptBytes (frame c2shBytes)) Priority.immediate] ∧
    (handleServerHandshake sha256 ecdh c st tok c2shBytes).1.secretKeyBytes =
      deriveSecretHash sha256 saltBuffer (ecdh servPriv clientIdKey) ∧
    (handleServerHandshake sha256 ecdh c st tok c2shBytes).1.iv =
      (deriveSecretHash sha256 saltBuffer (ecdh servPriv clientIdKey)).take 16 := by
  unfold handleServerHandshake clientSendPacket
  simp only [SessionState.comp, compress, encryptPacket, if_true, deriveSecretHash]
  rw [if_neg (by simpa using hst)]
  simp [hsalt, hecdh, deriveSecretHash]

/-- Witness for C4 with concrete toy SHA-256 and a constant (hence trivially
agreeing) ECDH, at a Connecting session. -/
theorem c4_handshake_encryption_witness :
    (handleServerHandshake (fun b => b) (fun _ _ => [7]) idCodec stConnecting ⟨5, saltBuffer⟩
        [4]).1.secretKeyBytes = (fun b => b) (saltBuffer ++ (fun _ _ => ([7] : Bytes)) 3 5) ∧
    (handleServerHandshake (fun b => b) (fun _ _ => [7]) idCodec stConnecting ⟨5, saltBuffer⟩
        [4]).2 =
      [ClientAction.sendFrame (254 :: idCodec.encryptBytes (frame [4])) Priority.immediate] :=
  have h := c4_handshake_encryption (fun b => b) (fun _ _ => [7]) idCodec stConnecting
    ⟨5, saltBuffer⟩ [4] 11 12 (by decide) rfl rfl
  ⟨h.1, h.2.2.2.1⟩

/-! ### Offline auth (src/src/network/auth.ts, src/src/client/client-data.ts) -/

/-- Profile record from src/src/network/auth.ts. -/
structure Profile where
  name : String
  uuid : String
  xuid : Nat
deriving DecidableEq, Repr

/-- UUID_NAMESPACE constant from src/src/network/auth.ts. -/
def UUID_NAMESPACE : String := "6ba7b811-9dad-11d1-80b4-00c04fd430c8"

/-- generateUUID from src/src/network/auth.ts: `v3` with the fixed namespace
and the username; UUIDv3 itself lives in the external `uuid-1345` package and
enters as the parameter `v3`. -/
def generateUUID (v3 : String → String → String) (username : String) : String :=
  v3 UUID_NAMESPACE username

/-- Profile synthesis in createOfflineSession (src/src/network/auth.ts lines
18-40): reject a falsy username, otherwise the name, the deterministic UUID
and xuid 0. -/
def createOfflineSessionProfile (v3 : String → String → String) (username : String) :
    Except String Profile :=
  if username = "" then .error "Must specify a valid username for offline session"
  else .ok { name := username, uuid := generateUUID v3 username, xuid := 0 }

/-- extraData claims of the offline identity JWT. -/
structure OfflineExtraData where
  displayName : String
  identity : String
  titleId : String
  XUID : String
deriving DecidableEq, Repr

/-- Claim body of the offline identity JWT. -/
structure IdentityChainPayload where
  extraData : OfflineExtraData
  certificateAuthority : Bool
  identityPublicKey : String
deriving DecidableEq, Repr

/-- Signer options of the offline branch plus the JOSE header fields (`typ`
is suppressed by the code). -/
structure SignOptions where
  algorithm : String
  notBefore : Nat
  issuer : String
  expiresIn : Nat
  headerAlg : String
  headerX5u : String
deriving DecidableEq, Repr

/-- A signed identity-chain JWT, recorded as what was signed and with which
key (the signature bytes are the external signer's concern). -/
structure SignedChainJwt where
  payload : IdentityChainPayload
  options : SignOptions
  signingKey : Nat
deriving DecidableEq, Repr

/-- Session login data: the x5u (base64 SPKI DER of the session public key)
and an opaque handle of the ECDH private key that signs the chain. -/
structure LoginDataM where
  clientX509 : String
  privKey : Nat
deriving DecidableEq, Repr

/-- ClientData.createClientChainInternal, offline branch, embedded from
src/src/client/client-data.ts (the module `client.ts` imports; the repository
also carries older loose revisions of this file, one of which instead writes
XUID empty, nbf at issuance time and no issuer). -/
def createClientChainInternalOffline (loginData : LoginDataM) (profile : Profile) :
    SignedChainJwt :=
  { payload :=
      { extraData :=
          { displayName := profile.name
            identity := profile.uuid
            titleId := "89692877"
            XUID := "0" }
        certificateAuthority := true
        identityPublicKey := loginData.clientX509 }
    options :=
      { algorithm := "ES384"
        notBefore := 0
        issuer := "self"
        expiresIn := 3600
        headerAlg := "ES384"
        headerX5u := loginData.clientX509 }
    signingKey := loginData.privKey }

/-- C5: for every username U, the offline session profile is
(U, UUIDv3 of (fixed namespace, U), xuid 0), and the self-signed identity JWT
built from it carries extraData displayName U, identity that UUID, XUID "0",
titleId "89692877", certificateAuthority true, identityPublicKey equal to the
session x5u (also the header x5u), signed by the session key with
expiresIn 3600, notBefore 0, issuer "self". -/
theorem c5_offline_session_chain (v3 : String → String → String) (username : String)
    (loginData : LoginDataM) (p : Profile) (husr : username ≠ "")
    (hp : createOfflineSessionProfile v3 username = .ok p) :
    p = { name := username, uuid := v3 UUID_NAMESPACE username, xuid := 0 } ∧
    (createClientChainInternalOffline loginData p).payload.extraData.displayName = username ∧
    (createClientChainInternalOffline loginData p).payload.extraData.identity =
      v3 UUID_NAMESPACE username ∧
    (createClientChainInternalOffline loginData p).payload.extraData.XUID = "0" ∧
    (createClientChainInternalOffline loginData p).payload.extraData.titleId = "89692877" ∧
    (createClientChainInternalOffline loginData p).payload.certificateAuthority = true ∧
    (createClientChainInternalOffline loginData p).payload.identityPublicKey =
      loginData.clientX509 ∧
    (createClientChainInternalOffline loginData p).options.headerX5u =
      loginData.clientX509 ∧
    (createClientChainInternalOffline loginData p).options =
      { algorithm := "ES384", notBefore := 0, issuer := "self", expiresIn := 3600,
        headerAlg := "ES384", headerX5u := loginData.clientX509 } ∧
    (createClientChainInternalOffline loginData p).signingKey = loginData.privKey := by
  unfold createOfflineSessionProfile at hp
  rw [if_neg husr] at hp
  simp only [Except.ok.injEq] at hp
  subst hp
  simp [createClientChainInternalOffline, generateUUID]

/-- Witness for C5 with a concrete UUIDv3 stand-in at username "Steve". -/
theorem c5_offline_session_chain_witness :
    ({ name := "Steve", uuid := (fun ns u => String.append ns u) UUID_NAMESPACE "Steve",
        xuid := 0 } : Profile) =
      { name := "Steve", uuid := (fun ns u => String.append ns u) UUID_NAMESPACE "Steve",
        xuid := 0 } ∧
    (createClientChainInternalOffline ⟨"sessionX5U", 3⟩
      { name := "Steve", uuid := (fun ns u => String.append ns u) UUID_NAMESPACE "Steve",
        xuid := 0 }).payload.extraData.XUID = "0" ∧
    (createClientChainInternalOffline ⟨"sessionX5U", 3⟩
      { name := "Steve", uuid := (fun ns u => String.append ns u) UUID_NAMESPACE "Steve",
        xuid := 0 }).options =
      { algorithm := "ES384", notBefore := 0, issuer := "self", expiresIn := 3600,
        headerAlg := "ES384", headerX5u := "sessionX5U" } :=
  have h := c5_offline_session_chain (fun ns u => String.append ns u) "Steve"
    ⟨"sessionX5U", 3⟩
    { name := "Steve", uuid := (fun ns u => String.append ns u) UUID_NAMESPACE "Steve",
      xuid := 0 }
    (by simp) rfl
  ⟨by rw [h.1], h.2.2.2.1, h.2.2.2.2.2.2.2.2.1⟩

/-! ### Bridge (src/src/bridge/bridge.ts, src/src/bridge/bridge-player.ts)

The bridge treats buffers opaquely except for the packet catalog operations it
invokes; those enter as the fields of `BridgeCatalog`, with deserialized
packets as opaque `Nat` handles.  Packet-name strings are replaced by the
closed `PacketName`/`EventName` types ("clientbound-X" becomes the event with
`clientbound := true`). -/

/-- Packet names the bridge logic branches on; `other` stands for every
further catalog entry. -/
inductive PacketName where
  | levelChunk
  | itemStackRequest
  | clientCacheStatus
  | startGame
  | other (n : Nat)
deriving DecidableEq, Repr

/-- Event key on the BridgePlayer emitter: direction tag plus packet name. -/
structure EventName where
  clientbound : Bool
  name : PacketName
deriving DecidableEq, Repr

/-- The packet catalog as the bridge sees it: id extraction, the `Packets`
map, class names, deserialization into opaque handles, re-serialization, and
the `binary` field handling.  All of it is external to the repository. -/
structure BridgeCatalog where
  getPacketId : Bytes → Nat
  known : Nat → Bool
  nameOf : Nat → PacketName
  deser : Bytes → Option Nat
  ser : Nat → Bytes
  hasBinary : Nat → Bool
  binaryNeedsClearing : Nat → Bool
  clearBinary : Nat → Nat
  levelChunkId : Nat

/-- Bridge-side state: `BridgePlayer.postStartGame`,
`BridgePlayer.levelChunkQueue` (deserialized chunk handles in arrival order)
and `Bridge.packetSerializationCache`, keyed by (id, original bytes). -/
structure BridgeState where
  postStartGame : Bool
  levelChunkQueue : List Nat
  serializationCache : List ((Nat × Bytes) × Bytes)
deriving DecidableEq, Repr

/-- Association lookup in the serialization cache. -/
def lookupCache (cache : List ((Nat × Bytes) × Bytes)) (key : Nat × Bytes) : Option Bytes :=
  match cache with
  | [] => none
  | (k, v) :: t => if k = key then some v else lookupCache t key

/-- Resolved packet name of a buffer: `Packets[id]?.name` with the
ClientCacheStatusPacket fallback used for the unlisted id 0x81. -/
def bridgePacketName (cat : BridgeCatalog) (buffer : Bytes) : PacketName :=
  if cat.known (cat.getPacketId buffer) then cat.nameOf (cat.getPacketId buffer)
  else PacketName.clientCacheStatus

/-- hasListeners on the BridgePlayer emitter: user listeners plus the
structural once-listener its constructor registers for
clientbound-StartGamePacket, live until it has fired (postStartGame false). -/
def bridgeHasListeners (userListeners : EventName → Bool) (st : BridgeState)
    (e : EventName) : Bool :=
  userListeners e || (e = ⟨true, PacketName.startGame⟩ && !st.postStartGame)

/-- Effect on the StartGame packet handle of the replay loop in BridgePlayer's
constructor (bridge-player.ts lines 27-39): per queued chunk, the packet's
`binary` field is emptied when present. -/
def replayClearBinary (cat : BridgeCatalog) (pkt : Nat) (queue : List Nat) : Nat :=
  queue.foldl (fun p _ => if cat.hasBinary p then cat.clearBinary p else p) pkt

/-- Bridge.processPacketCommon, embedded from src/src/bridge/bridge.ts lines
86-230, with the synchronous effect of BridgePlayer's StartGame once-listener
inlined at the emit site (user listeners are modelled as pure observers:
invoked, never cancelling or modifying).  Returns the updated state and the
buffers handed to `sender.send` in order; for the clientbound direction the
sender and the replay destination are both the downstream player. -/
def processPacketCommon (cat : BridgeCatalog) (userListeners : EventName → Bool)
    (st : BridgeState) (buffer : Bytes) (isClientbound : Bool) :
    BridgeState × List Bytes :=
  let id := cat.getPacketId buffer
  let packetName := bridgePacketName cat buffer
  let eventName : EventName := ⟨isClientbound, packetName⟩
  if !cat.known id && id ≠ 129 then (st, [buffer])
  else if packetName = PacketName.levelChunk && !st.postStartGame then
    match cat.deser buffer with
    | some chunk => ({ st with levelChunkQueue := st.levelChunkQueue ++ [chunk] }, [])
    | none => (st, [buffer])
  else if packetName = PacketName.itemStackRequest then (st, [buffer])
  else
    let hasL := bridgeHasListeners userListeners st eventName
    let isCache := packetName = PacketName.clientCacheStatus
    if !(hasL || decide isCache) then (st, [buffer])
    else
      match lookupCache st.serializationCache (id, buffer) with
      | some cached => (st, [cached])
      | none =>
        if !(cat.known id || id = 129 || id = cat.levelChunkId) then (st, [buffer])
        else
          match cat.deser buffer with
          | none => (st, [buffer])
          | some pkt =>
            if id = 129 then (st, [])
            else
              let fireOnce := hasL &&
                (decide (eventName = ⟨true, PacketName.startGame⟩) && !st.postStartGame)
              let st1 := if fireOnce then { st with postStartGame := true } else st
              let replay := if fireOnce then st.levelChunkQueue.map cat.ser else []
              let pkt1 := if fireOnce then replayClearBinary cat pkt st.levelChunkQueue else pkt
              let modified := cat.hasBinary pkt1 && cat.binaryNeedsClearing pkt1
              if modified then
                let out := cat.ser (cat.clearBinary pkt1)
                ({ st1 with
                    serializationCache := st1.serializationCache ++ [((id, buffer), out)] },
                  replay ++ [out])
              else (st1, replay ++ [buffer])

/-- Catalog for concrete bridge runs: id 58 is LevelChunkPacket, id 11 is
StartGamePacket, everything is deserializable to its first byte, serialization
shifts the handle by 100, no packet has a binary field. -/
def toyBridgeCatalog : BridgeCatalog :=
  { getPacketId := fun b => b.headD 0
    known := fun id => id = 58 || id = 11
    nameOf := fun id =>
      if id = 58 then PacketName.levelChunk
      else if id = 11 then PacketName.startGame
      else PacketName.other id
    deser := fun b => some (b.headD 0)
    ser := fun p => [p + 100]
    hasBinary := fun _ => false
    binaryNeedsClearing := fun _ => false
    clearBinary := fun p => p
    levelChunkId := 58 }

/-- Fresh bridge state (connection just promoted to a bridge pair). -/
def stBridge0 : BridgeState := ⟨false, [], []⟩

/-- C6 counterexample: with no listener registered anywhere, an inbound
ClientCacheStatus batch (id 0x81 = 129) is deserialized, forced to
enabled = false and dropped — no bytes are forwarded at all, contradicting
byte-for-byte pass-through for listener-less packets. -/
theorem c6_counterexample :
    (processPacketCommon toyBridgeCatalog (fun _ => false) stBridge0 [129, 7] true).2 = [] ∧
    (processPacketCommon toyBridgeCatalog (fun _ => false) stBridge0 [129, 7] true).2 ≠
      [[129, 7]] := by
  refine ⟨rfl, ?_⟩
  intro h
  rw [show (processPacketCommon toyBridgeCatalog (fun _ => false) stBridge0
      [129, 7] true).2 = [] from rfl] at h
  simp at h

/-- C6 amended: a packet with no registered listener on its event is forwarded
byte-for-byte to the other side, unless it resolves to the cache-status packet
(always intercepted and dropped), is a pre-StartGame LevelChunkPacket — in
either direction: the queueing check in bridge.ts ignores the direction — or
is the first clientbound StartGamePacket (whose built-in replay listener runs;
C7 covers that case — the packet itself is still forwarded verbatim, behind
the replayed chunks). -/
theorem c6_amended_passthrough (cat : BridgeCatalog) (UL : EventName → Bool)
    (st : BridgeState) (buffer : Bytes) (isClientbound : Bool)
    (hUL : UL ⟨isClientbound, bridgePacketName cat buffer⟩ = false)
    (hname : bridgePacketName cat buffer ≠ PacketName.clientCacheStatus)
    (hchunk : ¬(bridgePacketName cat buffer = PacketName.levelChunk ∧
      st.postStartGame = false))
    (hsg : ¬(isClientbound = true ∧ bridgePacketName cat buffer = PacketName.startGame ∧
      st.postStartGame = false)) :
    processPacketCommon cat UL st buffer isClientbound = (st, [buffer]) := by
  have hch : (decide (bridgePacketName cat buffer = PacketName.levelChunk) &&
      !st.postStartGame) = false := by
    by_cases hn : bridgePacketName cat buffer = PacketName.levelChunk
    · rcases Bool.eq_false_or_eq_true st.postStartGame with hpg | hpg
      · simp [hpg]
      · exact absurd ⟨hn, hpg⟩ hchunk
    · simp [hn]
  have hlist : bridgeHasListeners UL st ⟨isClientbound, bridgePacketName cat buffer⟩
      = false := by
    unfold bridgeHasListeners
    rw [hUL, Bool.false_or]
    by_cases hev : (⟨isClientbound, bridgePacketName cat buffer⟩ : EventName)
        = ⟨true, PacketName.startGame⟩
    · have h1 : isClientbound = true := congrArg EventName.clientbound hev
      have h2 : bridgePacketName cat buffer = PacketName.startGame :=
        congrArg EventName.name hev
      have h3 : st.postStartGame = true := by
        rcases Bool.eq_false_or_eq_true st.postStartGame with hpg | hpg
        · exact hpg
        · exact absurd ⟨h1, h2, hpg⟩ hsg
      simp [hev, h3]
    · simp [hev]
  simp only [processPacketCommon]
  by_cases hk : (!cat.known (cat.getPacketId buffer) &&
      decide (cat.getPacketId buffer ≠ 129)) = true
  · rw [if_pos hk]
  · rw [if_neg hk, if_neg (by simp [hch])]
    by_cases hitem : bridgePacketName cat buffer = PacketName.itemStackRequest
    · rw [if_pos hitem]
    · rw [if_neg hitem, if_pos (by simp [hlist, hname])]

/-- Witness for the amended C6: a listener-less, post-StartGame arbitrary
known packet passes through verbatim. -/
theorem c6_amended_passthrough_witness :
    processPacketCommon toyBridgeCatalog (fun _ => false) ⟨true, [], []⟩ [11, 3] true =
      (⟨true, [], []⟩, [[11, 3]]) :=
  c6_amended_passthrough toyBridgeCatalog (fun _ => false) ⟨true, [], []⟩ [11, 3] true
    rfl (by decide) (by decide) (by decide)

theorem replayClearBinary_of_not_hasBinary (cat : BridgeCatalog) (pkt : Nat)
    (queue : List Nat) (h : cat.hasBinary pkt = false) :
    replayClearBinary cat pkt queue = pkt := by
  induction queue with
  | nil => rfl
  | cons a t ih =>
    unfold replayClearBinary at ih ⊢
    rw [List.foldl_cons, if_neg (by simp [h])]
    exact ih

/-- A clientbound LevelChunkPacket arriving while postStartGame is false is
deserialized and appended to the queue; nothing is forwarded. -/
theorem processPacketCommon_chunk_queued (cat : BridgeCatalog) (UL : EventName → Bool)
    (st : BridgeState) (b : Bytes) (ch : Nat)
    (hpg : st.postStartGame = false)
    (hknown : cat.known (cat.getPacketId b) = true)
    (hname : cat.nameOf (cat.getPacketId b) = PacketName.levelChunk)
    (hdeser : cat.deser b = some ch) :
    processPacketCommon cat UL st b true =
      ({ st with levelChunkQueue := st.levelChunkQueue ++ [ch] }, []) := by
  simp [processPacketCommon, bridgePacketName, hknown, hname, hpg, hdeser]

/-- The first clientbound StartGamePacket: the built-in once-listener flips
postStartGame and sends every queued chunk (re-serialized, in queue order) to
the downstream player during the emit, after which processPacketCommon
forwards the original StartGame bytes. -/
theorem processPacketCommon_startGame (cat : BridgeCatalog) (UL : EventName → Bool)
    (st : BridgeState) (sg : Bytes) (pkt : Nat)
    (hpg : st.postStartGame = false)
    (hknown : cat.known (cat.getPacketId sg) = true)
    (hname : cat.nameOf (cat.getPacketId sg) = PacketName.startGame)
    (hid : cat.getPacketId sg ≠ 129)
    (hcache : lookupCache st.serializationCache (cat.getPacketId sg, sg) = none)
    (hdeser : cat.deser sg = some pkt)
    (hnb : cat.hasBinary pkt = false) :
    processPacketCommon cat UL st sg true =
      ({ st with postStartGame := true }, st.levelChunkQueue.map cat.ser ++ [sg]) := by
  simp [processPacketCommon, bridgePacketName, bridgeHasListeners, hknown, hname, hpg,
    hid, hcache, hdeser, hnb, replayClearBinary_of_not_hasBinary cat pkt _ hnb]

/-- Clientbound buffers handed to the bridge in arrival order, accumulating
the downstream sends. -/
def runClientbound (cat : BridgeCatalog) (UL : EventName → Bool) :
    BridgeState → List Bytes → BridgeState × List Bytes
  | st, [] => (st, [])
  | st, b :: bs =>
    let r1 := processPacketCommon cat UL st b true
    let r2 := runClientbound cat UL r1.1 bs
    (r2.1, r1.2 ++ r2.2)

theorem runClientbound_chunks (cat : BridgeCatalog) (UL : EventName → Bool)
    (cs : List Bytes) (st : BridgeState)
    (hpg : st.postStartGame = false)
    (hcs : ∀ b ∈ cs, cat.known (cat.getPacketId b) = true ∧
      cat.nameOf (cat.getPacketId b) = PacketName.levelChunk ∧ (cat.deser b).isSome) :
    runClientbound cat UL st cs =
      ({ st with levelChunkQueue := st.levelChunkQueue ++ cs.filterMap cat.deser }, []) := by
  induction cs generalizing st with
  | nil => simp [runClientbound]
  | cons b bs ih =>
    obtain ⟨hk, hn, hd⟩ := hcs b (List.mem_cons_self b bs)
    obtain ⟨ch, hch⟩ := Option.isSome_iff_exists.mp hd
    have hstep := processPacketCommon_chunk_queued cat UL st b ch hpg hk hn hch
    have hrest := ih { st with levelChunkQueue := st.levelChunkQueue ++ [ch] } hpg
      (fun x hx => hcs x (List.mem_cons_of_mem b hx))
    rw [runClientbound]
    simp only [hstep, hrest, List.filterMap_cons, hch, List.append_nil]
    simp [List.append_assoc]

theorem runClientbound_append (cat : BridgeCatalog) (UL : EventName → Bool)
    (xs ys : List Bytes) (st : BridgeState) :
    runClientbound cat UL st (xs ++ ys) =
      ((runClientbound cat UL (runClientbound cat UL st xs).1 ys).1,
        (runClientbound cat UL st xs).2 ++
          (runClientbound cat UL (runClientbound cat UL st xs).1 ys).2) := by
  induction xs generalizing st with
  | nil => simp [runClientbound]
  | cons b bs ih => simp [runClientbound, ih, List.append_assoc]

/-- C7 counterexample: a chunk (id 58) then StartGame (id 11) through the
bridge with no user listeners.  The queued chunk is delivered to the
downstream peer (re-serialized as `[158]`) BEFORE the forwarded StartGame
bytes `[11, 2]`, so the withheld chunks are not delivered after StartGame as
claimed. -/
theorem c7_counterexample :
    (runClientbound toyBridgeCatalog (fun _ => false) stBridge0 [[58, 1], [11, 2]]).2 =
      [[158], [11, 2]] ∧
    (runClientbound toyBridgeCatalog (fun _ => false) stBridge0
        [[58, 1], [11, 2]]).1.postStartGame = true ∧
    (runClientbound toyBridgeCatalog (fun _ => false) stBridge0 [[58, 1], [11, 2]]).2 ≠
      [[11, 2], [158]] := by
  refine ⟨rfl, rfl, ?_⟩
  intro h
  rw [show (runClientbound toyBridgeCatalog (fun _ => false) stBridge0
      [[58, 1], [11, 2]]).2 = [[158], [11, 2]] from rfl] at h
  simp at h

/-- C7 amended: every clientbound LevelChunkPacket arriving before the first
clientbound StartGamePacket is withheld (queued, nothing forwarded); when
StartGame is observed the postStartGame flag flips and all withheld chunks are
delivered to the downstream peer in their original arrival order —
immediately BEFORE the forwarded StartGame bytes, not after them. -/
theorem c7_amended_chunk_replay (cat : BridgeCatalog) (UL : EventName → Bool)
    (cs : List Bytes) (sg : Bytes) (pkt : Nat)
    (hcs : ∀ b ∈ cs, cat.known (cat.getPacketId b) = true ∧
      cat.nameOf (cat.getPacketId b) = PacketName.levelChunk ∧ (cat.deser b).isSome)
    (hknown : cat.known (cat.getPacketId sg) = true)
    (hname : cat.nameOf (cat.getPacketId sg) = PacketName.startGame)
    (hid : cat.getPacketId sg ≠ 129)
    (hdeser : cat.deser sg = some pkt)
    (hnb : cat.hasBinary pkt = false) :
    runClientbound cat UL stBridge0 cs =
      (⟨false, cs.filterMap cat.deser, []⟩, []) ∧
    runClientbound cat UL stBridge0 (cs ++ [sg]) =
      (⟨true, cs.filterMap cat.deser, []⟩,
        (cs.filterMap cat.deser).map cat.ser ++ [sg]) := by
  have h1 := runClientbound_chunks cat UL cs stBridge0 rfl hcs
  have h1' : runClientbound cat UL stBridge0 cs =
      (⟨false, cs.filterMap cat.deser, []⟩, []) := by
    rw [h1]; rfl
  refine ⟨h1', ?_⟩
  have hstep := processPacketCommon_startGame cat UL
    ⟨false, cs.filterMap cat.deser, []⟩ sg pkt rfl hknown hname hid rfl hdeser hnb
  rw [runClientbound_append, h1']
  simp [runClientbound, hstep]

/-- Witness for the amended C7 at one concrete chunk and one StartGame. -/
theorem c7_amended_chunk_replay_witness :
    runClientbound toyBridgeCatalog (fun _ => false) stBridge0 [[58, 1]] =
      (⟨false, [[58, 1]].filterMap toyBridgeCatalog.deser, []⟩, []) ∧
    runClientbound toyBridgeCatalog (fun _ => false) stBridge0 ([[58, 1]] ++ [[11, 2]]) =
      (⟨true, [[58, 1]].filterMap toyBridgeCatalog.deser, []⟩,
        ([[58, 1]].filterMap toyBridgeCatalog.deser).map toyBridgeCatalog.ser ++ [[11, 2]]) :=
  c7_amended_chunk_replay toyBridgeCatalog (fun _ => false) [[58, 1]] [11, 2] 11
    (by decide) rfl rfl (by decide) rfl rfl

end Baltica
